import Mathlib

/-!
Verification of the HyprDots dotfiles installer
(`src/lib/modules/dotfiles.py`, class `DotfilesInstaller`).

The installer is embedded shallowly: a filesystem is a flat map from
paths (lists of path segments) to nodes (regular files, directories,
symbolic links).  The helper primitives `remove`, `copy`,
`create_symlink`, `path_lexists` live in `includes/library.py`, which is
not part of the sources; they are modelled from the specification's
section 4.1, as are the three root path constants from
`includes/paths.py`.  Everything in `dotfiles.py` itself is translated
directly from the Python code.
-/

namespace Dotfiles

/-- A filesystem path, as a list of path segments. -/
abbrev Path := List String

/-- A filesystem node: a regular file (with its byte contents), a
directory, or a symbolic link carrying its target path. -/
inductive Node where
  | file (content : List Nat)
  | dir
  | symlink (target : Path)
  deriving DecidableEq, Repr

/-- A flat filesystem: each path independently maps to at most one node. -/
abbrev FS := Path → Option Node

/-- `leads p q` is true when `p` is an initial segment of `q`, i.e. `q`
lies inside the subtree rooted at `p` (or is `p` itself). -/
def leads : Path → Path → Bool
  | [], _ => true
  | _ :: _, [] => false
  | a :: p, b :: q => if a = b then leads p q else false

/-- `stripLead p q = some r` exactly when `q = p ++ r`. -/
def stripLead : Path → Path → Option Path
  | [], q => some q
  | _ :: _, [] => none
  | a :: p, b :: q => if a = b then stripLead p q else none

/-- The possible faults of the external `git clone` child process:
non-zero exit status, failure to spawn the executable, or any other
raised exception.  All of them are raised out of `run_command` and in
the Python code land in the surrounding `except Exception` handler. -/
inductive CloneFault where
  | nonzeroExit
  | spawnFailure
  | otherError
  deriving DecidableEq, Repr

/-- The world state threaded through the installer: the filesystem,
the set of paths on which `remove` hits an I/O error (modelling
permission/busy failures, per spec section 4.1), and an oracle giving
the outcome of a `git clone` into a given destination (`none` means the
clone succeeds; modelling spec section 4.2). -/
structure Env where
  fs : FS
  removeFaults : List Path
  cloneOutcome : Path → Option CloneFault

/-- Outcome of one pipeline step: the boolean the Python method returns
plus the world state it leaves behind. -/
structure StepOut where
  ok : Bool
  env : Env

/-- Modelled from the spec: `path_lexists` from `includes/library.py`,
"lexists" semantics — true when the path has an entry, a dangling
symbolic link included (spec section 4.1, `exists_or_broken_link`). -/
def path_lexists (fs : FS) (p : Path) : Bool :=
  (fs p).isSome

/-- Symlink-following existence with a fuel bound, used to model
Python's dereferencing `Path.exists()`. -/
def resolvesFuel : Nat → FS → Path → Bool
  | 0, _, _ => false
  | Nat.succ n, fs, p =>
    match fs p with
    | some (Node.symlink t) => resolvesFuel n fs t
    | some _ => true
    | none => false

/-- Modelled from the spec: Python's dereferencing `Path.exists()` —
a dangling symbolic link does not exist under this check (glossary:
"Dangling/broken symlink"). -/
def path_exists (fs : FS) (p : Path) : Bool :=
  resolvesFuel 64 fs p

/-- Deleting the whole subtree rooted at `p` from a filesystem. -/
def removeSub (fs : FS) (p : Path) : FS :=
  fun q => if leads p q then none else fs q

/-- Modelled from the spec: `remove` from `includes/library.py` (spec
section 4.1): recursive deletion, vacuously successful when the path
does not exist, returning `false` (and leaving the filesystem alone) on
an I/O failure; it never raises past this boundary. -/
def remove (env : Env) (p : Path) : Bool × Env :=
  if (env.fs p).isNone then (true, env)
  else if env.removeFaults.contains p then (false, env)
  else (true, { env with fs := removeSub env.fs p })

/-- Modelled from the spec: `create_symlink` from
`includes/library.py` (spec section 4.1): a no-op success when the
target is already a symlink to the source; an error when a conflicting
entry survives at the target; otherwise the target becomes a symbolic
link to the source. -/
def create_symlink (env : Env) (source target : Path) : Bool × Env :=
  match env.fs target with
  | some (Node.symlink t) =>
      if t = source then (true, env) else (false, env)
  | some _ => (false, env)
  | none =>
      (true, { env with
                fs := fun q => if q = target then some (Node.symlink source) else env.fs q })

/-- The view of a filesystem after recursively copying the subtree at
`src` onto `dst` (symlinks copied as symlinks, not dereferenced). -/
def copyTree (fs : FS) (src dst : Path) : FS :=
  fun q =>
    match stripLead dst q with
    | some r => fs (src ++ r)
    | none => fs q

/-- The view of a filesystem after renaming the subtree at `src` to
`dst` (Python's `Path.rename`). -/
def renamePath (fs : FS) (src dst : Path) : FS :=
  fun q =>
    match stripLead dst q with
    | some r => fs (src ++ r)
    | none => if leads src q then none else fs q

/-- The relative layout of a freshly cloned repository: a root
directory, version-control metadata under `.git`, and one content
file.  The concrete shape is irrelevant to the claims; what matters is
that a successful clone populates the destination. -/
def cloneRepoNode : Path → Option Node :=
  fun r =>
    if r = [] then some Node.dir
    else if r = [".git"] then some Node.dir
    else if r = [".git", "HEAD"] then some (Node.file [114])
    else none

/-- Modelled from the spec: the `git clone` child process invocation
(spec sections 4.2 and 6).  The oracle in `Env` decides whether this
particular invocation faults; on success the destination subtree holds
the cloned repository, on any fault the error is raised to the caller
(as `run_command(check=True)` raises in Python). -/
def run_git_clone (env : Env) (dest : Path) : Except CloneFault Env :=
  match env.cloneOutcome dest with
  | some f => Except.error f
  | none =>
      Except.ok { env with
                   fs := fun q =>
                     match stripLead dest q with
                     | some r => cloneRepoNode r
                     | none => env.fs q }

/-- Modelled from the spec: `HYPRDOTS_DOTFILES_DIR` from
`includes/paths.py` — the read-only source tree root (`sourceRoot`). -/
def HYPRDOTS_DOTFILES_DIR : Path := ["hyprdots", "dotfiles"]

/-- Modelled from the spec: `USER_DOTFILES_DIR` from
`includes/paths.py` — the writable staging root (`stageRoot`). -/
def USER_DOTFILES_DIR : Path := ["home", "dotfiles"]

/-- Modelled from the spec: `USER_CONFIGS_DIR` from
`includes/paths.py` — the live configuration root (`configRoot`). -/
def USER_CONFIGS_DIR : Path := ["home", ".config"]

/-- The component registry, `self.dotfiles_components` from
`DotfilesInstaller.__init__`. -/
def dotfiles_components : List String :=
  ["hypr", "waybar", "rofi", "fish", "kitty", "neofetch", "fastfetch",
   "cava", "waypaper", "swaync", "btop", "wlogout", "atuin", "tmux",
   "starship.toml"]

/-- `self.source_dotfiles_components_paths` from `__init__`:
`HYPRDOTS_DOTFILES_DIR / i` for each component `i`. -/
def source_dotfiles_components_paths : List Path :=
  dotfiles_components.map (fun i => HYPRDOTS_DOTFILES_DIR ++ [i])

/-- `self.target_dotfiles_components_paths` from `__init__`:
`USER_DOTFILES_DIR / i` for each component `i`. -/
def target_dotfiles_components_paths : List Path :=
  dotfiles_components.map (fun i => USER_DOTFILES_DIR ++ [i])

/-- The path `_remove_existing_configs` recomputes per component:
`file = USER_CONFIGS_DIR / i` (line 218). -/
def remove_target_path (i : String) : Path :=
  USER_CONFIGS_DIR ++ [i]

/-- The link source `_create_links` recomputes per component:
`source = USER_DOTFILES_DIR / component` (line 235). -/
def link_source_path (component : String) : Path :=
  USER_DOTFILES_DIR ++ [component]

/-- The link target `_create_links` recomputes per component:
`target = USER_CONFIGS_DIR / component` (line 236). -/
def link_target_path (component : String) : Path :=
  USER_CONFIGS_DIR ++ [component]

/-- The first source path failing the `path_lexists` check in the
`_validate_sources` loop, which is the path the method logs and names
in its spinner error before returning `False`. -/
def findMissing : List Path → FS → Option Path
  | [], _ => none
  | p :: rest, fs => if path_lexists fs p then findMissing rest fs else some p

/-- `first_missing_source`: the source path `_validate_sources` reports,
if any. -/
def first_missing_source (env : Env) : Option Path :=
  findMissing source_dotfiles_components_paths env.fs

/-- Step 1, `DotfilesInstaller._validate_sources`: on a dry run sleep
and report success; otherwise fail on the first source component path
that does not `path_lexists`, else succeed.  The method never mutates
the filesystem. -/
def validate_sources (dry_run : Bool) (env : Env) : StepOut :=
  if dry_run then ⟨true, env⟩
  else ⟨(first_missing_source env).isNone, env⟩

/-- Step 2, `DotfilesInstaller._copy_dotfiles`: on a dry run report
success; otherwise, if the stage root `exists()` remove it (the boolean
result of that `remove` is ignored, as in the Python), then copy
`HYPRDOTS_DOTFILES_DIR` to `USER_DOTFILES_DIR`, reporting failure if
the copy raises.  The copy is modelled from the spec as failing when
the source tree is absent or an entry survives at the destination.
First, the cleanup: `if USER_DOTFILES_DIR.exists(): remove(...)`, the
boolean result of the `remove` ignored as in the Python. -/
def copy_stage_clean (env : Env) : Env :=
  if path_exists env.fs USER_DOTFILES_DIR then (remove env USER_DOTFILES_DIR).2 else env

/-- The actual copy of step 2, after the stage root has been cleaned. -/
def copy_perform (env1 : Env) : StepOut :=
  if path_lexists env1.fs USER_DOTFILES_DIR then ⟨false, env1⟩
  else if !path_lexists env1.fs HYPRDOTS_DOTFILES_DIR then ⟨false, env1⟩
  else ⟨true, { env1 with fs := copyTree env1.fs HYPRDOTS_DOTFILES_DIR USER_DOTFILES_DIR }⟩

/-- Step 2 proper, combining the cleanup and the copy. -/
def copy_dotfiles (dry_run : Bool) (env : Env) : StepOut :=
  if dry_run then ⟨true, env⟩
  else copy_perform (copy_stage_clean env)

/-- The `missing` list accumulated by the `_verify_copy` loop: every
target component path that fails the `path_lexists` check, in registry
order; each is logged as a named error. -/
def missingOf : List Path → FS → List Path
  | [], _ => []
  | p :: rest, fs =>
      if path_lexists fs p then missingOf rest fs else p :: missingOf rest fs

/-- The missing-components report of step 3 on a given state. -/
def verify_missing (env : Env) : List Path :=
  missingOf target_dotfiles_components_paths env.fs

/-- Step 3, `DotfilesInstaller._verify_copy`: on a dry run return
success immediately (no delay, no check); otherwise collect every
missing staged component and fail exactly when the collection is
non-empty.  The method never mutates the filesystem. -/
def verify_copy (dry_run : Bool) (env : Env) : StepOut :=
  if dry_run then ⟨true, env⟩
  else ⟨(verify_missing env).isEmpty, env⟩

/-- The result of the `_remove_existing_configs` loop: the final state,
the path whose removal failed (the one named in the spinner error), and
the list of paths on which `remove` was actually invoked, in order. -/
structure RemoveRun where
  env : Env
  failed : Option Path
  attempted : List Path

/-- The `_remove_existing_configs` loop body: remove
`USER_CONFIGS_DIR / i` for each component in order, returning as soon
as one `remove` reports failure. -/
def remove_existing_aux : List String → Env → RemoveRun
  | [], env => ⟨env, none, []⟩
  | i :: rest, env =>
      if (remove env (remove_target_path i)).1 then
        ⟨(remove_existing_aux rest (remove env (remove_target_path i)).2).env,
         (remove_existing_aux rest (remove env (remove_target_path i)).2).failed,
         remove_target_path i ::
           (remove_existing_aux rest (remove env (remove_target_path i)).2).attempted⟩
      else ⟨(remove env (remove_target_path i)).2, some (remove_target_path i),
            [remove_target_path i]⟩

/-- Step 4, `DotfilesInstaller._remove_existing_configs`: on a dry run
report success; otherwise run the removal loop and fail when it stopped
at a failing path. -/
def remove_existing_configs (dry_run : Bool) (env : Env) : StepOut :=
  if dry_run then ⟨true, env⟩
  else ⟨(remove_existing_aux dotfiles_components env).failed.isNone,
        (remove_existing_aux dotfiles_components env).env⟩

/-- The `_create_links` loop body: attempt
`create_symlink(USER_DOTFILES_DIR / c, USER_CONFIGS_DIR / c)` for every
component (no early return), accumulating the failed
`(source, target)` pairs in order. -/
def create_links_aux : List String → Env → Env × List (Path × Path)
  | [], env => (env, [])
  | component :: rest, env =>
      if (create_symlink env (link_source_path component) (link_target_path component)).1 then
        create_links_aux rest
          (create_symlink env (link_source_path component) (link_target_path component)).2
      else
        ((create_links_aux rest
            (create_symlink env (link_source_path component) (link_target_path component)).2).1,
         (link_source_path component, link_target_path component) ::
           (create_links_aux rest
             (create_symlink env (link_source_path component) (link_target_path component)).2).2)

/-- The `failed_links` list of step 5 on a given state, the full list
the step reports. -/
def create_links_failed (env : Env) : List (Path × Path) :=
  (create_links_aux dotfiles_components env).2

/-- Step 5, `DotfilesInstaller._create_links`: on a dry run report
success; otherwise attempt every component and fail exactly when the
accumulated `failed_links` list is non-empty. -/
def create_links (dry_run : Bool) (env : Env) : StepOut :=
  if dry_run then ⟨true, env⟩
  else ⟨(create_links_aux dotfiles_components env).2.isEmpty,
        (create_links_aux dotfiles_components env).1⟩

/-- `tpm_dir = USER_DOTFILES_DIR / "tmux" / "plugins" / "tpm"` from
`_install_tpm`. -/
def tpm_dir : Path := USER_DOTFILES_DIR ++ ["tmux", "plugins", "tpm"]

/-- The part of `_install_tpm` before the clone: if `tpm_dir.exists()`
(dereferencing check), remove it (result ignored). -/
def install_tpm_pre (env : Env) : Env :=
  if path_exists env.fs tpm_dir then (remove env tpm_dir).2 else env

/-- Step 6, `DotfilesInstaller._install_tpm`: on a dry run report
success; otherwise remove any existing (dereferencing-`exists`) tpm
directory, then clone the TPM repository into it; any fault raised by
the clone is caught by the `except Exception` handler and turned into a
`False` return. -/
def install_tpm (dry_run : Bool) (env : Env) : StepOut :=
  if dry_run then ⟨true, env⟩
  else
    match run_git_clone (install_tpm_pre env) tpm_dir with
    | Except.ok env2 => ⟨true, env2⟩
    | Except.error _ => ⟨false, install_tpm_pre env⟩

/-- `lazyvim_dir = USER_DOTFILES_DIR / "nvim"` from `_install_lazyvim`. -/
def lazyvim_dir : Path := USER_DOTFILES_DIR ++ ["nvim"]

/-- `nvim_config_dir = USER_CONFIGS_DIR / "nvim"` from
`_install_lazyvim`. -/
def nvim_config_dir : Path := USER_CONFIGS_DIR ++ ["nvim"]

/-- `backup_dir = USER_CONFIGS_DIR / "nvim.backup"` from
`_install_lazyvim`. -/
def nvim_backup_dir : Path := USER_CONFIGS_DIR ++ ["nvim.backup"]

/-- First action of `_install_lazyvim`: if the staged
`lazyvim_dir.exists()` (dereferencing check), remove it (result
ignored). -/
def lazyvim_stage_step (env : Env) : Env :=
  if path_exists env.fs lazyvim_dir then (remove env lazyvim_dir).2 else env

/-- Inside the backup branch of `_install_lazyvim`: if
`backup_dir.exists()` (dereferencing check), remove it (result
ignored). -/
def lazyvim_backup_remove_step (env : Env) : Env :=
  if path_exists env.fs nvim_backup_dir then (remove env nvim_backup_dir).2 else env

/-- The backup branch of `_install_lazyvim`: if
`nvim_config_dir.exists()` (dereferencing check), delete any previous
backup and rename the live config directory to the backup path. -/
def lazyvim_backup_step (env : Env) : Env :=
  if path_exists env.fs nvim_config_dir then
    { lazyvim_backup_remove_step env with
       fs := renamePath (lazyvim_backup_remove_step env).fs nvim_config_dir nvim_backup_dir }
  else env

/-- Everything `_install_lazyvim` does before the clone. -/
def install_lazyvim_pre (env : Env) : Env :=
  lazyvim_backup_step (lazyvim_stage_step env)

/-- Step 7, `DotfilesInstaller._install_lazyvim`: on a dry run report
success; otherwise remove the staged nvim directory if it exists, back
up the live nvim config if it exists (deleting a colliding previous
backup first), clone the LazyVim starter into the staged location and
strip its `.git` directory (`if git_dir.exists(): remove(git_dir)`);
any fault raised by the clone is caught by the `except Exception`
handler and turned into a `False` return.  The `.git` strip: -/
def lazyvim_git_strip (env2 : Env) : Env :=
  if path_exists env2.fs (lazyvim_dir ++ [".git"]) then
    (remove env2 (lazyvim_dir ++ [".git"])).2
  else env2

/-- Step 7 proper (see the description above `install_lazyvim_pre`). -/
def install_lazyvim (dry_run : Bool) (env : Env) : StepOut :=
  if dry_run then ⟨true, env⟩
  else
    match run_git_clone (install_lazyvim_pre env) lazyvim_dir with
    | Except.ok env2 => ⟨true, lazyvim_git_strip env2⟩
    | Except.error _ => ⟨false, install_lazyvim_pre env⟩

/-- The names of the seven pipeline steps, in the order `install` runs
them. -/
def stepNames : List String :=
  ["ValidateSources", "CopyDotfiles", "VerifyCopy", "RemoveExistingConfigs",
   "CreateLinks", "InstallTpm", "InstallLazyVim"]

/-- State after step 1 of the pipeline. -/
def pipe1 (dry_run : Bool) (env : Env) : StepOut := validate_sources dry_run env

/-- State after step 2 of the pipeline. -/
def pipe2 (dry_run : Bool) (env : Env) : StepOut := copy_dotfiles dry_run (pipe1 dry_run env).env

/-- State after step 3 of the pipeline. -/
def pipe3 (dry_run : Bool) (env : Env) : StepOut := verify_copy dry_run (pipe2 dry_run env).env

/-- State after step 4 of the pipeline. -/
def pipe4 (dry_run : Bool) (env : Env) : StepOut :=
  remove_existing_configs dry_run (pipe3 dry_run env).env

/-- State after step 5 of the pipeline. -/
def pipe5 (dry_run : Bool) (env : Env) : StepOut := create_links dry_run (pipe4 dry_run env).env

/-- State after step 6 of the pipeline. -/
def pipe6 (dry_run : Bool) (env : Env) : StepOut := install_tpm dry_run (pipe5 dry_run env).env

/-- State after step 7 of the pipeline. -/
def pipe7 (dry_run : Bool) (env : Env) : StepOut := install_lazyvim dry_run (pipe6 dry_run env).env

/-- `DotfilesInstaller.install`: run the seven steps in order,
returning `False` as soon as one fails (`if not step(): return False`).
Besides the boolean result and the final world state, the model records
the names of the steps that actually executed, so that the fail-fast
shape of the chain is itself a provable statement. -/
def install (dry_run : Bool) (env : Env) : Bool × Env × List String :=
  if (pipe1 dry_run env).ok = false then (false, (pipe1 dry_run env).env, stepNames.take 1)
  else if (pipe2 dry_run env).ok = false then (false, (pipe2 dry_run env).env, stepNames.take 2)
  else if (pipe3 dry_run env).ok = false then (false, (pipe3 dry_run env).env, stepNames.take 3)
  else if (pipe4 dry_run env).ok = false then (false, (pipe4 dry_run env).env, stepNames.take 4)
  else if (pipe5 dry_run env).ok = false then (false, (pipe5 dry_run env).env, stepNames.take 5)
  else if (pipe6 dry_run env).ok = false then (false, (pipe6 dry_run env).env, stepNames.take 6)
  else if (pipe7 dry_run env).ok = false then (false, (pipe7 dry_run env).env, stepNames.take 7)
  else (true, (pipe7 dry_run env).env, stepNames)

/-- Build a filesystem from a finite association list of entries. -/
def lookupFS (l : List (Path × Node)) : FS :=
  fun p => (l.find? (fun e => e.1 = p)).map (fun e => e.2)

/-- A fully healthy world: the source tree holds every registry
component (as a regular file) under an existing source root, nothing
exists at the stage or config roots, no removal faults, and every clone
succeeds. -/
def envGood : Env :=
  { fs := lookupFS ((HYPRDOTS_DOTFILES_DIR, Node.dir) ::
      dotfiles_components.map (fun c => (HYPRDOTS_DOTFILES_DIR ++ [c], Node.file [7]))),
    removeFaults := [],
    cloneOutcome := fun _ => none }

/-- A world with an entirely empty filesystem. -/
def envEmpty : Env :=
  { fs := fun _ => none, removeFaults := [], cloneOutcome := fun _ => none }

/-! ### Path lemmas -/

theorem leads_refl (p : Path) : leads p p = true := by
  induction p with
  | nil => rfl
  | cons a p ih => simp [leads, ih]

theorem leads_self_append (p r : Path) : leads p (p ++ r) = true := by
  induction p with
  | nil => rfl
  | cons a p ih => simp [leads, ih]

theorem leads_append_same (R p q : Path) : leads (R ++ p) (R ++ q) = leads p q := by
  induction R with
  | nil => rfl
  | cons a R ih => simp [leads, ih]

theorem leads_cons_ne {x y : String} (h : x ≠ y) (p q : Path) :
    leads (x :: p) (y :: q) = false := by
  simp [leads, h]

theorem leads_extend {p q : Path} (s : Path) (h : leads p q = false) :
    leads (p ++ s) q = false := by
  induction p generalizing q with
  | nil => cases s with
    | nil => simpa using h
    | cons a s => simp [leads] at h
  | cons a p ih =>
      cases q with
      | nil => rfl
      | cons b q =>
          by_cases hab : a = b
          · subst hab
            simp only [leads, if_pos rfl] at h ⊢
            exact ih h
          · simp [leads, hab]

theorem stripLead_append (p r : Path) : stripLead p (p ++ r) = some r := by
  induction p with
  | nil => rfl
  | cons a p ih => simp [stripLead, ih]

theorem stripLead_eq_none {p q : Path} (h : leads p q = false) :
    stripLead p q = none := by
  induction p generalizing q with
  | nil => simp [leads] at h
  | cons a p ih =>
      cases q with
      | nil => rfl
      | cons b q =>
          by_cases hab : a = b
          · subst hab
            simp only [leads, if_pos rfl] at h
            simp only [stripLead, if_pos rfl]
            exact ih h
          · simp [stripLead, hab]

theorem append_single_inj {p : Path} {x y : String} (h : p ++ [x] = p ++ [y]) : x = y := by
  have := List.append_cancel_left h
  simpa using this

theorem leads_single {x y : String} {r : Path} :
    leads [x] (y :: r) = true → x = y := by
  by_cases hxy : x = y
  · intro _; exact hxy
  · simp [leads, hxy]

/-! ### Disjointness of the three roots -/

theorem not_leads_cfg_stage (r : Path) :
    leads USER_CONFIGS_DIR (USER_DOTFILES_DIR ++ r) = false := by
  show leads ("home" :: [".config"]) ("home" :: "dotfiles" :: r) = false
  simp only [leads, if_pos rfl]
  exact leads_cons_ne (show ".config" ≠ "dotfiles" by decide) [] r

theorem not_leads_stage_cfg (r : Path) :
    leads USER_DOTFILES_DIR (USER_CONFIGS_DIR ++ r) = false := by
  show leads ("home" :: ["dotfiles"]) ("home" :: ".config" :: r) = false
  simp only [leads, if_pos rfl]
  exact leads_cons_ne (show "dotfiles" ≠ ".config" by decide) [] r

theorem not_leads_stage_src (r : Path) :
    leads USER_DOTFILES_DIR (HYPRDOTS_DOTFILES_DIR ++ r) = false := by
  show leads ("home" :: ["dotfiles"]) ("hyprdots" :: "dotfiles" :: r) = false
  exact leads_cons_ne (show "home" ≠ "hyprdots" by decide) _ _

theorem not_leads_cfg_src (r : Path) :
    leads USER_CONFIGS_DIR (HYPRDOTS_DOTFILES_DIR ++ r) = false := by
  show leads ("home" :: [".config"]) ("hyprdots" :: "dotfiles" :: r) = false
  exact leads_cons_ne (show "home" ≠ "hyprdots" by decide) _ _

theorem leads_single_ne {x y : String} (h : x ≠ y) (r : Path) :
    leads [x] (y :: r) = false :=
  leads_cons_ne h [] r

/-! ### Primitive-operation lemmas -/

theorem path_exists_expand (fs : FS) (p : Path) :
    path_exists fs p = resolvesFuel (Nat.succ 63) fs p := rfl

theorem resolvesFuel_none {fs : FS} {p : Path} (h : fs p = none) :
    ∀ n, resolvesFuel n fs p = false := by
  intro n
  cases n with
  | zero => rfl
  | succ n => simp [resolvesFuel, h]

theorem path_exists_none {fs : FS} {p : Path} (h : fs p = none) :
    path_exists fs p = false :=
  resolvesFuel_none h 64

theorem path_exists_dir {fs : FS} {p : Path} (h : fs p = some Node.dir) :
    path_exists fs p = true := by
  rw [path_exists_expand]
  simp [resolvesFuel, h]

theorem path_exists_file {fs : FS} {p : Path} {c : List Nat}
    (h : fs p = some (Node.file c)) : path_exists fs p = true := by
  rw [path_exists_expand]
  simp [resolvesFuel, h]

theorem path_exists_broken {fs : FS} {p t : Path}
    (h : fs p = some (Node.symlink t)) (ht : fs t = none) :
    path_exists fs p = false := by
  rw [path_exists_expand]
  simp only [resolvesFuel, h]
  exact resolvesFuel_none ht 63

theorem remove_fs_frame {env : Env} {p q : Path} (h : leads p q = false) :
    ((remove env p).2).fs q = env.fs q := by
  unfold remove
  split
  · rfl
  · split
    · rfl
    · simp [removeSub, h]

theorem remove_fs_none {env : Env} {p q : Path} (h : env.fs q = none) :
    ((remove env p).2).fs q = none := by
  unfold remove
  split
  · exact h
  · split
    · exact h
    · simp only [removeSub]
      split <;> simp [h]

theorem remove_faults_eq (env : Env) (p : Path) :
    ((remove env p).2).removeFaults = env.removeFaults := by
  unfold remove
  split
  · rfl
  · split <;> rfl

theorem remove_clone_eq (env : Env) (p : Path) :
    ((remove env p).2).cloneOutcome = env.cloneOutcome := by
  unfold remove
  split
  · rfl
  · split <;> rfl

theorem remove_ok_self {env : Env} (p : Path) (h : env.removeFaults = []) :
    ((remove env p).2).fs p = none := by
  unfold remove
  split
  · next hn => simpa [Option.isNone_iff_eq_none] using hn
  · rw [h]
    simp [removeSub, leads_refl, List.contains]

theorem create_symlink_frame {env : Env} {s t q : Path} (h : q ≠ t) :
    ((create_symlink env s t).2).fs q = env.fs q := by
  unfold create_symlink
  split
  · split <;> rfl
  · rfl
  · simp [h]

theorem create_symlink_success {env : Env} {s t : Path}
    (h : (create_symlink env s t).1 = true) :
    ((create_symlink env s t).2).fs t = some (Node.symlink s) := by
  unfold create_symlink at h ⊢
  split at h
  · next t' heq =>
      split at h
      · next hts => subst hts; simp [heq]
      · simp at h
  · simp at h
  · simp

theorem copyTree_strip {fs : FS} {src dst : Path} (r : Path) :
    copyTree fs src dst (dst ++ r) = fs (src ++ r) := by
  simp [copyTree, stripLead_append]

theorem copyTree_frame {fs : FS} {src dst q : Path} (h : leads dst q = false) :
    copyTree fs src dst q = fs q := by
  simp [copyTree, stripLead_eq_none h]

theorem renamePath_dst {fs : FS} {src dst : Path} (r : Path) :
    renamePath fs src dst (dst ++ r) = fs (src ++ r) := by
  simp [renamePath, stripLead_append]

theorem renamePath_frame {fs : FS} {src dst q : Path}
    (h1 : leads dst q = false) (h2 : leads src q = false) :
    renamePath fs src dst q = fs q := by
  simp [renamePath, stripLead_eq_none h1, h2]

theorem renamePath_src_gone {fs : FS} {src dst q : Path}
    (h1 : leads dst q = false) (h2 : leads src q = true) :
    renamePath fs src dst q = none := by
  simp [renamePath, stripLead_eq_none h1, h2]

theorem run_git_clone_ok_frame {env env' : Env} {dest q : Path}
    (h : run_git_clone env dest = Except.ok env') (hq : leads dest q = false) :
    env'.fs q = env.fs q := by
  unfold run_git_clone at h
  split at h
  · exact absurd h (by simp)
  · cases h
    simp [stripLead_eq_none hq]

theorem run_git_clone_error {env : Env} {dest : Path} {f : CloneFault}
    (h : env.cloneOutcome dest = some f) :
    run_git_clone env dest = Except.error f := by
  unfold run_git_clone
  split
  · next f' heq => rw [h] at heq; cases heq; rfl
  · next heq => rw [h] at heq; cases heq

/-! ### Step-level lemmas -/

theorem validate_env_eq (dry_run : Bool) (env : Env) :
    (validate_sources dry_run env).env = env := by
  unfold validate_sources
  split <;> rfl

theorem verify_env_eq (dry_run : Bool) (env : Env) :
    (verify_copy dry_run env).env = env := by
  unfold verify_copy
  split <;> rfl

theorem copy_dotfiles_false (env : Env) :
    copy_dotfiles false env = copy_perform (copy_stage_clean env) := by
  unfold copy_dotfiles
  rw [if_neg Bool.false_ne_true]

theorem copy_stage_clean_frame {env : Env} {q : Path}
    (h : leads USER_DOTFILES_DIR q = false) :
    (copy_stage_clean env).fs q = env.fs q := by
  unfold copy_stage_clean
  split
  · exact remove_fs_frame h
  · rfl

theorem copy_perform_frame {env1 : Env} {q : Path}
    (h : leads USER_DOTFILES_DIR q = false) :
    ((copy_perform env1).env).fs q = env1.fs q := by
  unfold copy_perform
  split
  · rfl
  · split
    · rfl
    · exact copyTree_frame h

theorem copy_fs_frame {env : Env} {q : Path}
    (h : leads USER_DOTFILES_DIR q = false) :
    ((copy_dotfiles false env).env).fs q = env.fs q := by
  rw [copy_dotfiles_false]
  rw [copy_perform_frame h]
  exact copy_stage_clean_frame h

theorem copy_ok_stage {env : Env} (hok : (copy_dotfiles false env).ok = true) (r : Path) :
    ((copy_dotfiles false env).env).fs (USER_DOTFILES_DIR ++ r) =
      env.fs (HYPRDOTS_DOTFILES_DIR ++ r) := by
  rw [copy_dotfiles_false] at hok ⊢
  unfold copy_perform at hok ⊢
  split at hok
  · simp at hok
  · split at hok
    · simp at hok
    · next h1 h2 =>
        rw [if_neg (by simp [h1]), if_neg (by simp [h2])]
        show copyTree (copy_stage_clean env).fs HYPRDOTS_DOTFILES_DIR USER_DOTFILES_DIR
              (USER_DOTFILES_DIR ++ r) = env.fs (HYPRDOTS_DOTFILES_DIR ++ r)
        rw [copyTree_strip]
        exact copy_stage_clean_frame (not_leads_stage_src r)

theorem remove_fail_env {env : Env} {p : Path} (h : (remove env p).1 = false) :
    (remove env p).2 = env := by
  unfold remove at h ⊢
  split at h
  · simp at h
  · split at h
    · split
      · rfl
      · simp_all
    · simp at h

theorem remove_existing_aux_attempted_mem (l : List String) (env : Env) :
    ∀ p ∈ (remove_existing_aux l env).attempted, ∃ c ∈ l, p = remove_target_path c := by
  induction l generalizing env with
  | nil => intro p hp; simp [remove_existing_aux] at hp
  | cons i rest ih =>
      intro p hp
      simp only [remove_existing_aux] at hp
      by_cases hr : (remove env (remove_target_path i)).1 = true
      · rw [if_pos hr] at hp
        simp only [List.mem_cons] at hp
        rcases hp with hp | hp
        · exact ⟨i, by simp, hp⟩
        · obtain ⟨c, hc, hpc⟩ := ih _ p hp
          exact ⟨c, by simp [hc], hpc⟩
      · rw [if_neg hr] at hp
        simp only [List.mem_singleton] at hp
        exact ⟨i, by simp, hp⟩

theorem remove_existing_aux_untouched (l : List String) (env : Env) {q : Path}
    (h : ∀ p ∈ (remove_existing_aux l env).attempted, leads p q = false) :
    ((remove_existing_aux l env).env).fs q = env.fs q := by
  induction l generalizing env with
  | nil => rfl
  | cons i rest ih =>
      simp only [remove_existing_aux] at h ⊢
      by_cases hr : (remove env (remove_target_path i)).1 = true
      · rw [if_pos hr] at h ⊢
        simp only at h ⊢
        rw [ih _ (fun p hp => h p (List.mem_cons_of_mem _ hp))]
        exact remove_fs_frame (h _ (List.mem_cons_self _ _))
      · rw [if_neg hr] at h ⊢
        simp only [Bool.not_eq_true] at hr
        rw [remove_fail_env hr]

theorem remove_existing_aux_frame (l : List String) (env : Env) {q : Path}
    (h : ∀ c ∈ l, leads (remove_target_path c) q = false) :
    ((remove_existing_aux l env).env).fs q = env.fs q := by
  apply remove_existing_aux_untouched
  intro p hp
  obtain ⟨c, hc, rfl⟩ := remove_existing_aux_attempted_mem l env p hp
  exact h c hc

theorem remove_existing_aux_attempted (l : List String) (env : Env) :
    (remove_existing_aux l env).attempted =
      (l.map remove_target_path).take (remove_existing_aux l env).attempted.length := by
  induction l generalizing env with
  | nil => rfl
  | cons i rest ih =>
      simp only [remove_existing_aux]
      by_cases hr : (remove env (remove_target_path i)).1 = true
      · rw [if_pos hr]
        simp only [List.map_cons, List.length_cons, List.take_succ_cons]
        congr 1
        exact ih _
      · rw [if_neg hr]
        simp

theorem remove_existing_aux_ok (l : List String) (env : Env)
    (h : (remove_existing_aux l env).failed = none) :
    (remove_existing_aux l env).attempted = l.map remove_target_path := by
  induction l generalizing env with
  | nil => rfl
  | cons i rest ih =>
      simp only [remove_existing_aux] at h ⊢
      by_cases hr : (remove env (remove_target_path i)).1 = true
      · rw [if_pos hr] at h ⊢
        simp only at h ⊢
        rw [ih _ h]
        rfl
      · rw [if_neg hr] at h
        simp at h

theorem remove_existing_aux_failed (l : List String) (env : Env) {p : Path}
    (h : (remove_existing_aux l env).failed = some p) :
    (remove_existing_aux l env).attempted.getLast? = some p ∧
      (remove ((remove_existing_aux l env).env) p).1 = false := by
  induction l generalizing env with
  | nil => simp [remove_existing_aux] at h
  | cons i rest ih =>
      simp only [remove_existing_aux] at h ⊢
      by_cases hr : (remove env (remove_target_path i)).1 = true
      · rw [if_pos hr] at h ⊢
        simp only at h ⊢
        obtain ⟨h1, h2⟩ := ih _ h
        refine ⟨?_, h2⟩
        rw [List.getLast?_cons, h1]
        cases hatt : (remove_existing_aux rest (remove env (remove_target_path i)).2).attempted with
        | nil => rw [hatt] at h1; simp at h1
        | cons a as => rw [hatt] at h1; simp [h1]
      · rw [if_neg hr] at h ⊢
        simp only at h ⊢
        cases h
        simp only [Bool.not_eq_true] at hr
        rw [remove_fail_env hr]
        exact ⟨rfl, hr⟩

theorem create_links_aux_frame (l : List String) (env : Env) {q : Path}
    (h : ∀ c ∈ l, q ≠ link_target_path c) :
    ((create_links_aux l env).1).fs q = env.fs q := by
  induction l generalizing env with
  | nil => rfl
  | cons component rest ih =>
      simp only [create_links_aux]
      by_cases hr :
          (create_symlink env (link_source_path component) (link_target_path component)).1 = true
      · rw [if_pos hr]
        rw [ih _ (fun c hc => h c (List.mem_cons_of_mem _ hc))]
        exact create_symlink_frame (h component (List.mem_cons_self _ _))
      · rw [if_neg hr]
        simp only
        rw [ih _ (fun c hc => h c (List.mem_cons_of_mem _ hc))]
        exact create_symlink_frame (h component (List.mem_cons_self _ _))

theorem create_links_aux_linked (l : List String) (env : Env) (hnd : l.Nodup) :
    ∀ c ∈ l,
      (link_source_path c, link_target_path c) ∈ (create_links_aux l env).2 ∨
        ((create_links_aux l env).1).fs (link_target_path c) =
          some (Node.symlink (link_source_path c)) := by
  induction l generalizing env with
  | nil => intro c hc; simp at hc
  | cons component rest ih =>
      intro c hc
      have hnd' : rest.Nodup := (List.nodup_cons.mp hnd).2
      have hcm : component ∉ rest := (List.nodup_cons.mp hnd).1
      simp only [create_links_aux]
      rcases List.mem_cons.mp hc with hceq | hcr
      · subst hceq
        by_cases hr :
            (create_symlink env (link_source_path c) (link_target_path c)).1 = true
        · rw [if_pos hr]
          right
          rw [create_links_aux_frame rest _ (fun c' hc' hne => hcm ?_)]
          · exact create_symlink_success hr
          · have := append_single_inj hne
            rwa [this]
        · rw [if_neg hr]
          left
          exact List.mem_cons_self _ _
      · by_cases hr :
            (create_symlink env (link_source_path component) (link_target_path component)).1 = true
        · rw [if_pos hr]
          exact ih _ hnd' c hcr
        · rw [if_neg hr]
          rcases ih _ hnd' c hcr with hmem | hfs
          · left
            exact List.mem_cons_of_mem _ hmem
          · right
            exact hfs

theorem install_tpm_false (env : Env) :
    install_tpm false env =
      match run_git_clone (install_tpm_pre env) tpm_dir with
      | Except.ok env2 => ⟨true, env2⟩
      | Except.error _ => ⟨false, install_tpm_pre env⟩ := by
  unfold install_tpm
  rw [if_neg Bool.false_ne_true]

theorem install_tpm_pre_frame {env : Env} {q : Path} (h : leads tpm_dir q = false) :
    (install_tpm_pre env).fs q = env.fs q := by
  unfold install_tpm_pre
  split
  · exact remove_fs_frame h
  · rfl

theorem install_tpm_pre_clone_eq (env : Env) :
    (install_tpm_pre env).cloneOutcome = env.cloneOutcome := by
  unfold install_tpm_pre
  split
  · exact remove_clone_eq env tpm_dir
  · rfl

theorem install_tpm_fs_frame {env : Env} {q : Path} (h : leads tpm_dir q = false) :
    ((install_tpm false env).env).fs q = env.fs q := by
  rw [install_tpm_false]
  cases hc : run_git_clone (install_tpm_pre env) tpm_dir with
  | ok env2 =>
      simp only
      rw [run_git_clone_ok_frame hc h]
      exact install_tpm_pre_frame h
  | error f =>
      simp only
      exact install_tpm_pre_frame h

theorem install_tpm_fault {env : Env} {f : CloneFault}
    (h : env.cloneOutcome tpm_dir = some f) :
    install_tpm false env = ⟨false, install_tpm_pre env⟩ := by
  rw [install_tpm_false]
  rw [run_git_clone_error (by rw [install_tpm_pre_clone_eq]; exact h)]

theorem install_lazyvim_false (env : Env) :
    install_lazyvim false env =
      match run_git_clone (install_lazyvim_pre env) lazyvim_dir with
      | Except.ok env2 => ⟨true, lazyvim_git_strip env2⟩
      | Except.error _ => ⟨false, install_lazyvim_pre env⟩ := by
  unfold install_lazyvim
  rw [if_neg Bool.false_ne_true]

theorem lazyvim_stage_step_frame {env : Env} {q : Path} (h : leads lazyvim_dir q = false) :
    (lazyvim_stage_step env).fs q = env.fs q := by
  unfold lazyvim_stage_step
  split
  · exact remove_fs_frame h
  · rfl

theorem lazyvim_backup_remove_step_frame {env : Env} {q : Path}
    (h : leads nvim_backup_dir q = false) :
    (lazyvim_backup_remove_step env).fs q = env.fs q := by
  unfold lazyvim_backup_remove_step
  split
  · exact remove_fs_frame h
  · rfl

theorem lazyvim_backup_step_frame {env : Env} {q : Path}
    (h1 : leads nvim_config_dir q = false) (h2 : leads nvim_backup_dir q = false) :
    (lazyvim_backup_step env).fs q = env.fs q := by
  unfold lazyvim_backup_step
  split
  · simp only
    rw [renamePath_frame h2 h1]
    exact lazyvim_backup_remove_step_frame h2
  · rfl

theorem lazyvim_git_strip_frame {env : Env} {q : Path} (h : leads lazyvim_dir q = false) :
    (lazyvim_git_strip env).fs q = env.fs q := by
  unfold lazyvim_git_strip
  split
  · exact remove_fs_frame (leads_extend [".git"] h)
  · rfl

theorem install_lazyvim_pre_frame {env : Env} {q : Path}
    (hs : leads lazyvim_dir q = false) (h1 : leads nvim_config_dir q = false)
    (h2 : leads nvim_backup_dir q = false) :
    (install_lazyvim_pre env).fs q = env.fs q := by
  unfold install_lazyvim_pre
  rw [lazyvim_backup_step_frame h1 h2]
  exact lazyvim_stage_step_frame hs

theorem lazyvim_stage_step_clone_eq (env : Env) :
    (lazyvim_stage_step env).cloneOutcome = env.cloneOutcome := by
  unfold lazyvim_stage_step
  split
  · exact remove_clone_eq env lazyvim_dir
  · rfl

theorem lazyvim_backup_remove_step_clone_eq (env : Env) :
    (lazyvim_backup_remove_step env).cloneOutcome = env.cloneOutcome := by
  unfold lazyvim_backup_remove_step
  split
  · exact remove_clone_eq env nvim_backup_dir
  · rfl

theorem lazyvim_backup_step_clone_eq (env : Env) :
    (lazyvim_backup_step env).cloneOutcome = env.cloneOutcome := by
  unfold lazyvim_backup_step
  split
  · simp only
    exact lazyvim_backup_remove_step_clone_eq env
  · rfl

theorem install_lazyvim_pre_clone_eq (env : Env) :
    (install_lazyvim_pre env).cloneOutcome = env.cloneOutcome := by
  unfold install_lazyvim_pre
  rw [lazyvim_backup_step_clone_eq]
  exact lazyvim_stage_step_clone_eq env

theorem install_lazyvim_fs_frame {env : Env} {q : Path}
    (hs : leads lazyvim_dir q = false) (h1 : leads nvim_config_dir q = false)
    (h2 : leads nvim_backup_dir q = false) :
    ((install_lazyvim false env).env).fs q = env.fs q := by
  rw [install_lazyvim_false]
  cases hc : run_git_clone (install_lazyvim_pre env) lazyvim_dir with
  | ok env2 =>
      simp only
      rw [lazyvim_git_strip_frame hs, run_git_clone_ok_frame hc hs]
      exact install_lazyvim_pre_frame hs h1 h2
  | error f =>
      simp only
      exact install_lazyvim_pre_frame hs h1 h2

theorem install_lazyvim_fault {env : Env} {f : CloneFault}
    (h : env.cloneOutcome lazyvim_dir = some f) :
    install_lazyvim false env = ⟨false, install_lazyvim_pre env⟩ := by
  rw [install_lazyvim_false]
  rw [run_git_clone_error (by rw [install_lazyvim_pre_clone_eq]; exact h)]

theorem missingOf_eq_filter (l : List Path) (fs : FS) :
    missingOf l fs = l.filter (fun p => !path_lexists fs p) := by
  induction l with
  | nil => rfl
  | cons p rest ih =>
      by_cases hp : path_lexists fs p = true
      · simp [missingOf, hp, List.filter, ih]
      · simp only [Bool.not_eq_true] at hp
        simp [missingOf, hp, List.filter, ih]

theorem leads_take (n : Nat) (l : List String) : leads (List.take n l) l = true := by
  induction l generalizing n with
  | nil => simp [leads]
  | cons a rest ih =>
      cases n with
      | zero => rfl
      | succ n =>
          simp only [List.take_succ_cons, leads, if_pos rfl]
          exact ih n

theorem not_leads_stage_cfg2 (x : String) (r : Path) :
    leads USER_DOTFILES_DIR ((USER_CONFIGS_DIR ++ [x]) ++ r) = false := by
  rw [List.append_assoc]
  exact not_leads_stage_cfg _

theorem not_leads_cfg_stage2 (x : String) (r : Path) :
    leads USER_CONFIGS_DIR ((USER_DOTFILES_DIR ++ [x]) ++ r) = false := by
  rw [List.append_assoc]
  exact not_leads_cfg_stage _

theorem not_leads_cfgx_cfgy {x y : String} (h : x ≠ y) (r : Path) :
    leads (USER_CONFIGS_DIR ++ [x]) ((USER_CONFIGS_DIR ++ [y]) ++ r) = false := by
  rw [List.append_assoc, List.singleton_append, leads_append_same]
  exact leads_single_ne h r

theorem not_leads_cfgx_cfgy0 {x y : String} (h : x ≠ y) :
    leads (USER_CONFIGS_DIR ++ [x]) (USER_CONFIGS_DIR ++ [y]) = false := by
  rw [leads_append_same]
  exact leads_single_ne h []

theorem lazyvim_stage_step_faults_eq (env : Env) :
    (lazyvim_stage_step env).removeFaults = env.removeFaults := by
  unfold lazyvim_stage_step
  split
  · exact remove_faults_eq env lazyvim_dir
  · rfl

theorem lazyvim_backup_remove_clears {env1 : Env}
    (hf : env1.removeFaults = [])
    (hb : env1.fs nvim_backup_dir = none ∨ env1.fs nvim_backup_dir = some Node.dir) :
    (lazyvim_backup_remove_step env1).fs nvim_backup_dir = none := by
  unfold lazyvim_backup_remove_step
  split
  · exact remove_ok_self _ hf
  · next hex =>
      rcases hb with hb | hb
      · exact hb
      · exact absurd (path_exists_dir hb) hex

/-- The registry never contains the two special editor names; several
frame arguments rely on this. -/
theorem comps_ne_special : ∀ c ∈ dotfiles_components, c ≠ "nvim" ∧ c ≠ "nvim.backup" := by
  decide

/-! ## Claim theorems -/

/-- C6: on a dry run every step — `VerifyCopy` included, which skips
even the artificial delay — reports success and returns the world
unchanged; `install` returns `true` with all seven steps traced, and
the filesystem afterwards is exactly the filesystem before, whatever it
was (in particular even when none of the three roots exist). -/
theorem claim_c6_dry_run_purity : ∀ env : Env,
    validate_sources true env = ⟨true, env⟩ ∧
    copy_dotfiles true env = ⟨true, env⟩ ∧
    verify_copy true env = ⟨true, env⟩ ∧
    remove_existing_configs true env = ⟨true, env⟩ ∧
    create_links true env = ⟨true, env⟩ ∧
    install_tpm true env = ⟨true, env⟩ ∧
    install_lazyvim true env = ⟨true, env⟩ ∧
    install true env = (true, env, stepNames) := by
  intro env
  exact ⟨rfl, rfl, rfl, rfl, rfl, rfl, rfl, rfl⟩

/-- C3: on a non-dry run, `VerifyCopy` leaves the world untouched, its
`missing` collection is exactly the set of staged component paths that
fail the `path_lexists` check (every component is checked, all misses
are collected), and the step fails precisely when that collection is
non-empty; the collection itself is what the step reports (each entry
is logged as a named error). -/
theorem claim_c3_verify_collects_all : ∀ env : Env,
    verify_copy false env = ⟨(verify_missing env).isEmpty, env⟩ ∧
    verify_missing env =
      target_dotfiles_components_paths.filter (fun p => !path_lexists env.fs p) ∧
    ((verify_copy false env).ok = false ↔ verify_missing env ≠ []) := by
  intro env
  refine ⟨rfl, missingOf_eq_filter _ _, ?_⟩
  show ((verify_missing env).isEmpty = false) ↔ verify_missing env ≠ []
  cases verify_missing env <;> simp

/-- C8: the three per-component paths are the same deterministic
functions of the component name and the three root constants at every
step: the list step 1 validates is `sourceRoot/name` over the registry,
the list step 3 verifies coincides with the link sources step 5
recomputes (`stageRoot/name`), and the path step 4 removes coincides
with the link target step 5 recomputes (`configRoot/name`). -/
theorem claim_c8_path_determinism :
    source_dotfiles_components_paths =
      dotfiles_components.map (fun n => HYPRDOTS_DOTFILES_DIR ++ [n]) ∧
    target_dotfiles_components_paths = dotfiles_components.map link_source_path ∧
    (∀ i : String, remove_target_path i = link_target_path i) ∧
    (∀ i : String, link_source_path i = USER_DOTFILES_DIR ++ [i]) ∧
    (∀ i : String, link_target_path i = USER_CONFIGS_DIR ++ [i]) :=
  ⟨rfl, rfl, fun _ => rfl, fun _ => rfl, fun _ => rfl⟩

/-- C2: the pipeline is a linear fail-fast chain: the recorded trace of
executed steps is always an initial segment of the seven step names; if
step `k` fails while the steps before it succeeded, `install` returns
`false` with exactly the first `k` steps executed; and `ValidateSources`
never mutates the world, so when it reports a missing source the run
returns `false` with the world exactly as it started — in particular
the stage directory is never created and steps 2–5 have no filesystem
side effects. -/
theorem claim_c2_fail_fast : ∀ (dry_run : Bool) (env : Env),
    leads (install dry_run env).2.2 stepNames = true ∧
    (validate_sources dry_run env).env = env ∧
    ((pipe1 dry_run env).ok = false →
       install dry_run env = (false, env, stepNames.take 1)) ∧
    ((pipe1 dry_run env).ok = true → (pipe2 dry_run env).ok = false →
       install dry_run env = (false, (pipe2 dry_run env).env, stepNames.take 2)) ∧
    ((pipe1 dry_run env).ok = true → (pipe2 dry_run env).ok = true →
       (pipe3 dry_run env).ok = false →
       install dry_run env = (false, (pipe3 dry_run env).env, stepNames.take 3)) ∧
    ((pipe1 dry_run env).ok = true → (pipe2 dry_run env).ok = true →
       (pipe3 dry_run env).ok = true → (pipe4 dry_run env).ok = false →
       install dry_run env = (false, (pipe4 dry_run env).env, stepNames.take 4)) ∧
    ((pipe1 dry_run env).ok = true → (pipe2 dry_run env).ok = true →
       (pipe3 dry_run env).ok = true → (pipe4 dry_run env).ok = true →
       (pipe5 dry_run env).ok = false →
       install dry_run env = (false, (pipe5 dry_run env).env, stepNames.take 5)) ∧
    ((pipe1 dry_run env).ok = true → (pipe2 dry_run env).ok = true →
       (pipe3 dry_run env).ok = true → (pipe4 dry_run env).ok = true →
       (pipe5 dry_run env).ok = true → (pipe6 dry_run env).ok = false →
       install dry_run env = (false, (pipe6 dry_run env).env, stepNames.take 6)) ∧
    ((pipe1 dry_run env).ok = true → (pipe2 dry_run env).ok = true →
       (pipe3 dry_run env).ok = true → (pipe4 dry_run env).ok = true →
       (pipe5 dry_run env).ok = true → (pipe6 dry_run env).ok = true →
       (pipe7 dry_run env).ok = false →
       install dry_run env = (false, (pipe7 dry_run env).env, stepNames.take 7)) ∧
    ((pipe1 dry_run env).ok = true → (pipe2 dry_run env).ok = true →
       (pipe3 dry_run env).ok = true → (pipe4 dry_run env).ok = true →
       (pipe5 dry_run env).ok = true → (pipe6 dry_run env).ok = true →
       (pipe7 dry_run env).ok = true →
       install dry_run env = (true, (pipe7 dry_run env).env, stepNames)) := by
  intro dry_run env
  refine ⟨?_, validate_env_eq dry_run env, ?_, ?_, ?_, ?_, ?_, ?_, ?_, ?_⟩
  · unfold install
    split_ifs <;> first
      | exact leads_take _ _
      | exact leads_refl stepNames
  · intro h1
    unfold install
    rw [if_pos h1]
    rw [show (pipe1 dry_run env).env = env from validate_env_eq dry_run env]
  · intro h1 h2
    unfold install
    rw [if_neg (by simp [h1]), if_pos h2]
  · intro h1 h2 h3
    unfold install
    rw [if_neg (by simp [h1]), if_neg (by simp [h2]), if_pos h3]
  · intro h1 h2 h3 h4
    unfold install
    rw [if_neg (by simp [h1]), if_neg (by simp [h2]), if_neg (by simp [h3]), if_pos h4]
  · intro h1 h2 h3 h4 h5
    unfold install
    rw [if_neg (by simp [h1]), if_neg (by simp [h2]), if_neg (by simp [h3]),
        if_neg (by simp [h4]), if_pos h5]
  · intro h1 h2 h3 h4 h5 h6
    unfold install
    rw [if_neg (by simp [h1]), if_neg (by simp [h2]), if_neg (by simp [h3]),
        if_neg (by simp [h4]), if_neg (by simp [h5]), if_pos h6]
  · intro h1 h2 h3 h4 h5 h6 h7
    unfold install
    rw [if_neg (by simp [h1]), if_neg (by simp [h2]), if_neg (by simp [h3]),
        if_neg (by simp [h4]), if_neg (by simp [h5]), if_neg (by simp [h6]), if_pos h7]
  · intro h1 h2 h3 h4 h5 h6 h7
    unfold install
    rw [if_neg (by simp [h1]), if_neg (by simp [h2]), if_neg (by simp [h3]),
        if_neg (by simp [h4]), if_neg (by simp [h5]), if_neg (by simp [h6]),
        if_neg (by simp [h7])]

/-- C2 witness: on an empty filesystem `ValidateSources` fails, and the
pipeline stops after step 1 with the world unchanged. -/
theorem claim_c2_fail_fast_witness :
    (pipe1 false envEmpty).ok = false ∧
    install false envEmpty = (false, envEmpty, stepNames.take 1) := by
  refine ⟨by decide, ?_⟩
  exact (claim_c2_fail_fast false envEmpty).2.2.1 (by decide)

/-- C9: for both bootstrap steps, every possible fault of the clone
invocation — non-zero exit, spawn failure, or any other raised
exception — is caught inside the step and converted into a `false`
result with the pre-clone world kept; the step functions (and hence the
orchestrator, which is a total function of them) never propagate the
fault. -/
theorem claim_c9_clone_fault_containment :
    (∀ (env : Env) (f : CloneFault), env.cloneOutcome tpm_dir = some f →
        install_tpm false env = ⟨false, install_tpm_pre env⟩) ∧
    (∀ (env : Env) (f : CloneFault), env.cloneOutcome lazyvim_dir = some f →
        install_lazyvim false env = ⟨false, install_lazyvim_pre env⟩) :=
  ⟨fun _ _ h => install_tpm_fault h, fun _ _ h => install_lazyvim_fault h⟩

/-- A world where every clone invocation fails with a non-zero exit. -/
def envCloneFail : Env :=
  { fs := fun _ => none, removeFaults := [],
    cloneOutcome := fun _ => some CloneFault.nonzeroExit }

/-- C9 witness: with a failing clone, both bootstrap steps return
`false` rather than propagating the fault. -/
theorem claim_c9_clone_fault_containment_witness :
    envCloneFail.cloneOutcome tpm_dir = some CloneFault.nonzeroExit ∧
    (install_tpm false envCloneFail).ok = false ∧
    (install_lazyvim false envCloneFail).ok = false := by
  refine ⟨rfl, ?_, ?_⟩
  · rw [claim_c9_clone_fault_containment.1 envCloneFail CloneFault.nonzeroExit rfl]
  · rw [claim_c9_clone_fault_containment.2 envCloneFail CloneFault.nonzeroExit rfl]

/-- C5: on a non-dry run, `RemoveExistingConfigs` walks the registry in
order: the attempted removals are always an initial segment of the
per-component config paths in registry order; the step succeeds exactly
when no removal failed; on success every component was attempted; on
failure the reported path is the last attempted one, the `remove` call
on it returned `false`, and no path outside the attempted segment was
touched. -/
theorem claim_c5_remove_short_circuit : ∀ env : Env,
    ((remove_existing_configs false env).ok = true ↔
       (remove_existing_aux dotfiles_components env).failed = none) ∧
    (remove_existing_configs false env).env = (remove_existing_aux dotfiles_components env).env ∧
    (remove_existing_aux dotfiles_components env).attempted =
      (dotfiles_components.map remove_target_path).take
        (remove_existing_aux dotfiles_components env).attempted.length ∧
    ((remove_existing_aux dotfiles_components env).failed = none →
       (remove_existing_aux dotfiles_components env).attempted =
         dotfiles_components.map remove_target_path) ∧
    (∀ p : Path, (remove_existing_aux dotfiles_components env).failed = some p →
       (remove_existing_aux dotfiles_components env).attempted.getLast? = some p ∧
       (remove ((remove_existing_aux dotfiles_components env).env) p).1 = false) ∧
    (∀ q : Path,
       (∀ p ∈ (remove_existing_aux dotfiles_components env).attempted, leads p q = false) →
       ((remove_existing_configs false env).env).fs q = env.fs q) := by
  intro env
  have hstep : remove_existing_configs false env =
      ⟨(remove_existing_aux dotfiles_components env).failed.isNone,
       (remove_existing_aux dotfiles_components env).env⟩ := by
    unfold remove_existing_configs
    rw [if_neg Bool.false_ne_true]
  refine ⟨?_, by rw [hstep], remove_existing_aux_attempted _ _,
      remove_existing_aux_ok _ _, fun p h => remove_existing_aux_failed _ _ h, ?_⟩
  · rw [hstep]
    show (remove_existing_aux dotfiles_components env).failed.isNone = true ↔ _
    exact Option.isNone_iff_eq_none
  · intro q hq
    rw [hstep]
    exact remove_existing_aux_untouched _ _ hq

/-- A world where two of the existing config paths are present but the
second one cannot be removed (an I/O fault on it). -/
def envFault : Env :=
  { fs := lookupFS [(USER_CONFIGS_DIR ++ ["hypr"], Node.dir),
                    (USER_CONFIGS_DIR ++ ["waybar"], Node.dir)],
    removeFaults := [USER_CONFIGS_DIR ++ ["waybar"]],
    cloneOutcome := fun _ => none }

/-- C5 witness: with a removal fault on the second component's config
path, the step stops right there: the failing path is reported, it is
the last one attempted, and only the first two components were ever
attempted. -/
theorem claim_c5_remove_short_circuit_witness :
    (remove_existing_aux dotfiles_components envFault).failed =
      some (remove_target_path "waybar") ∧
    (remove_existing_aux dotfiles_components envFault).attempted.getLast? =
      some (remove_target_path "waybar") ∧
    (remove_existing_aux dotfiles_components envFault).attempted =
      [remove_target_path "hypr", remove_target_path "waybar"] := by
  refine ⟨by decide, ?_, by decide⟩
  exact ((claim_c5_remove_short_circuit envFault).2.2.2.2.1 _ (by decide)).1

/-- C4: on a non-dry run, `CreateLinks` succeeds exactly when its
accumulated `failed_links` list (the full list it reports) is empty,
and every registry component is either in that failure list or ends the
step correctly linked — the symlink at `configRoot/name` points to
`stageRoot/name` — even when other components failed. -/
theorem claim_c4_link_accumulation : ∀ env : Env,
    ((create_links false env).ok = true ↔ create_links_failed env = []) ∧
    (create_links false env).env = (create_links_aux dotfiles_components env).1 ∧
    (∀ c ∈ dotfiles_components,
       (link_source_path c, link_target_path c) ∈ create_links_failed env ∨
         ((create_links false env).env).fs (link_target_path c) =
           some (Node.symlink (link_source_path c))) := by
  intro env
  have hstep : create_links false env =
      ⟨(create_links_aux dotfiles_components env).2.isEmpty,
       (create_links_aux dotfiles_components env).1⟩ := by
    unfold create_links
    rw [if_neg Bool.false_ne_true]
  refine ⟨?_, by rw [hstep], ?_⟩
  · rw [hstep]
    show (create_links_aux dotfiles_components env).2.isEmpty = true ↔ _
    unfold create_links_failed
    cases (create_links_aux dotfiles_components env).2 <;> simp
  · intro c hc
    rw [hstep]
    exact create_links_aux_linked dotfiles_components env (by decide) c hc

/-- A world where the config paths of the second and fourth components
are occupied by regular files, so their link creations fail while the
others succeed. -/
def envLinks : Env :=
  { fs := lookupFS [(USER_CONFIGS_DIR ++ ["waybar"], Node.file [1]),
                    (USER_CONFIGS_DIR ++ ["fish"], Node.file [2])],
    removeFaults := [],
    cloneOutcome := fun _ => none }

/-- C4 witness: with the second and fourth targets occupied, the step
fails reporting exactly those two `(source, target)` pairs, while a
component that succeeded (the first) is correctly linked. -/
theorem claim_c4_link_accumulation_witness :
    create_links_failed envLinks =
      [(link_source_path "waybar", link_target_path "waybar"),
       (link_source_path "fish", link_target_path "fish")] ∧
    (create_links false envLinks).ok = false ∧
    ((link_source_path "hypr", link_target_path "hypr") ∈ create_links_failed envLinks ∨
       ((create_links false envLinks).env).fs (link_target_path "hypr") =
         some (Node.symlink (link_source_path "hypr"))) := by
  refine ⟨by decide, by decide, ?_⟩
  exact (claim_c4_link_accumulation envLinks).2.2 "hypr" (by decide)

theorem install_lazyvim_after_pre {env : Env} {q : Path} (hq : leads lazyvim_dir q = false) :
    ((install_lazyvim false env).env).fs q = (install_lazyvim_pre env).fs q := by
  rw [install_lazyvim_false]
  cases hc : run_git_clone (install_lazyvim_pre env) lazyvim_dir with
  | ok env2 =>
      simp only
      rw [lazyvim_git_strip_frame hq]
      exact run_git_clone_ok_frame hc hq
  | error f => simp only

/-- C7: on a non-dry run of the LazyVim step, when the live editor
config directory exists (and removal is not hit by I/O faults), the
previous `nvim.backup` — whether absent or an existing directory — is
gone by the time the rename happens; after the whole step, for every
relative path the backup subtree holds exactly what the live directory
held at call time, the live path itself has been moved away, and the
backup exists: exactly one backup remains, the old one discarded. -/
theorem claim_c7_lazyvim_backup : ∀ env : Env,
    env.removeFaults = [] →
    env.fs nvim_config_dir = some Node.dir →
    (env.fs nvim_backup_dir = none ∨ env.fs nvim_backup_dir = some Node.dir) →
    ((lazyvim_backup_remove_step (lazyvim_stage_step env)).fs nvim_backup_dir = none ∧
     (∀ r : Path, ((install_lazyvim false env).env).fs (nvim_backup_dir ++ r) =
        env.fs (nvim_config_dir ++ r)) ∧
     ((install_lazyvim false env).env).fs nvim_config_dir = none ∧
     ((install_lazyvim false env).env).fs nvim_backup_dir = some Node.dir) := by
  intro env hf h2 hb
  have hl1 : leads lazyvim_dir nvim_config_dir = false := by
    show leads (USER_DOTFILES_DIR ++ ["nvim"]) (USER_CONFIGS_DIR ++ ["nvim"]) = false
    exact leads_extend ["nvim"] (not_leads_stage_cfg ["nvim"])
  have hl2 : leads lazyvim_dir nvim_backup_dir = false := by
    show leads (USER_DOTFILES_DIR ++ ["nvim"]) (USER_CONFIGS_DIR ++ ["nvim.backup"]) = false
    exact leads_extend ["nvim"] (not_leads_stage_cfg ["nvim.backup"])
  have hcfg1 : (lazyvim_stage_step env).fs nvim_config_dir = some Node.dir := by
    rw [lazyvim_stage_step_frame hl1]
    exact h2
  have hbak1 : (lazyvim_stage_step env).fs nvim_backup_dir = env.fs nvim_backup_dir :=
    lazyvim_stage_step_frame hl2
  have hf1 : (lazyvim_stage_step env).removeFaults = [] := by
    rw [lazyvim_stage_step_faults_eq]
    exact hf
  have hclear : (lazyvim_backup_remove_step (lazyvim_stage_step env)).fs nvim_backup_dir
      = none := by
    refine lazyvim_backup_remove_clears hf1 ?_
    rw [hbak1]
    exact hb
  have hex1 : path_exists (lazyvim_stage_step env).fs nvim_config_dir = true :=
    path_exists_dir hcfg1
  have hpre : install_lazyvim_pre env =
      { lazyvim_backup_remove_step (lazyvim_stage_step env) with
         fs := renamePath (lazyvim_backup_remove_step (lazyvim_stage_step env)).fs
                 nvim_config_dir nvim_backup_dir } := by
    unfold install_lazyvim_pre lazyvim_backup_step
    rw [if_pos hex1]
  have hcfgr : ∀ r : Path,
      (lazyvim_backup_remove_step (lazyvim_stage_step env)).fs (nvim_config_dir ++ r) =
        env.fs (nvim_config_dir ++ r) := by
    intro r
    have hA : leads nvim_backup_dir (nvim_config_dir ++ r) = false := by
      show leads (USER_CONFIGS_DIR ++ ["nvim.backup"]) ((USER_CONFIGS_DIR ++ ["nvim"]) ++ r)
          = false
      exact not_leads_cfgx_cfgy (by decide) r
    have hB : leads lazyvim_dir (nvim_config_dir ++ r) = false := by
      show leads (USER_DOTFILES_DIR ++ ["nvim"]) ((USER_CONFIGS_DIR ++ ["nvim"]) ++ r) = false
      exact leads_extend ["nvim"] (not_leads_stage_cfg2 "nvim" r)
    rw [lazyvim_backup_remove_step_frame hA]
    exact lazyvim_stage_step_frame hB
  have hpreb : ∀ r : Path,
      (install_lazyvim_pre env).fs (nvim_backup_dir ++ r) = env.fs (nvim_config_dir ++ r) := by
    intro r
    rw [hpre]
    show renamePath _ nvim_config_dir nvim_backup_dir (nvim_backup_dir ++ r) = _
    rw [renamePath_dst]
    exact hcfgr r
  have hprec : (install_lazyvim_pre env).fs nvim_config_dir = none := by
    rw [hpre]
    show renamePath (lazyvim_backup_remove_step (lazyvim_stage_step env)).fs
          nvim_config_dir nvim_backup_dir nvim_config_dir = none
    exact renamePath_src_gone
      (not_leads_cfgx_cfgy0 (show "nvim.backup" ≠ "nvim" by decide)) (leads_refl _)
  have hfin_b : ∀ r : Path,
      ((install_lazyvim false env).env).fs (nvim_backup_dir ++ r) =
        env.fs (nvim_config_dir ++ r) := by
    intro r
    have hLz : leads lazyvim_dir (nvim_backup_dir ++ r) = false := by
      show leads (USER_DOTFILES_DIR ++ ["nvim"]) ((USER_CONFIGS_DIR ++ ["nvim.backup"]) ++ r)
          = false
      exact leads_extend ["nvim"] (not_leads_stage_cfg2 "nvim.backup" r)
    rw [install_lazyvim_after_pre hLz]
    exact hpreb r
  have hfin_c : ((install_lazyvim false env).env).fs nvim_config_dir = none := by
    rw [install_lazyvim_after_pre hl1]
    exact hprec
  have hfin_b0 : ((install_lazyvim false env).env).fs nvim_backup_dir = some Node.dir := by
    have := hfin_b []
    rw [List.append_nil, List.append_nil] at this
    rw [this]
    exact h2
  exact ⟨hclear, hfin_b, hfin_c, hfin_b0⟩

/-- A world with both a live editor config directory (holding one file)
and a pre-existing backup directory (holding a different file). -/
def envLv : Env :=
  { fs := lookupFS [(nvim_config_dir, Node.dir),
                    (nvim_config_dir ++ ["init.lua"], Node.file [10]),
                    (nvim_backup_dir, Node.dir),
                    (nvim_backup_dir ++ ["old.lua"], Node.file [20])],
    removeFaults := [],
    cloneOutcome := fun _ => none }

/-- C7 witness: with both a live config and an old backup present, the
step leaves exactly one backup holding the live directory's contents
(the live file moved under the backup, the old backup file gone, the
live path vacated). -/
theorem claim_c7_lazyvim_backup_witness :
    envLv.fs nvim_config_dir = some Node.dir ∧
    ((install_lazyvim false envLv).env).fs (nvim_backup_dir ++ ["init.lua"]) =
      envLv.fs (nvim_config_dir ++ ["init.lua"]) ∧
    ((install_lazyvim false envLv).env).fs (nvim_backup_dir ++ ["old.lua"]) =
      envLv.fs (nvim_config_dir ++ ["old.lua"]) ∧
    ((install_lazyvim false envLv).env).fs nvim_config_dir = none ∧
    ((install_lazyvim false envLv).env).fs nvim_backup_dir = some Node.dir := by
  have h := claim_c7_lazyvim_backup envLv rfl (by decide) (Or.inr (by decide))
  exact ⟨by decide, h.2.1 ["init.lua"], h.2.1 ["old.lua"], h.2.2.1, h.2.2.2⟩

theorem install_lazyvim_broken {env : Env} {t : Path}
    (h1 : env.fs nvim_config_dir = some (Node.symlink t))
    (h2 : env.fs t = none)
    (h3 : leads USER_DOTFILES_DIR t = false) :
    ((install_lazyvim false env).env).fs nvim_config_dir = some (Node.symlink t) ∧
    ((install_lazyvim false env).env).fs nvim_backup_dir = env.fs nvim_backup_dir := by
  have hl1 : leads lazyvim_dir nvim_config_dir = false := by
    show leads (USER_DOTFILES_DIR ++ ["nvim"]) (USER_CONFIGS_DIR ++ ["nvim"]) = false
    exact leads_extend ["nvim"] (not_leads_stage_cfg ["nvim"])
  have hl2 : leads lazyvim_dir nvim_backup_dir = false := by
    show leads (USER_DOTFILES_DIR ++ ["nvim"]) (USER_CONFIGS_DIR ++ ["nvim.backup"]) = false
    exact leads_extend ["nvim"] (not_leads_stage_cfg ["nvim.backup"])
  have hc1 : (lazyvim_stage_step env).fs nvim_config_dir = some (Node.symlink t) := by
    rw [lazyvim_stage_step_frame hl1]
    exact h1
  have ht1 : (lazyvim_stage_step env).fs t = none := by
    rw [lazyvim_stage_step_frame (leads_extend ["nvim"] h3)]
    exact h2
  have hb1 : (lazyvim_stage_step env).fs nvim_backup_dir = env.fs nvim_backup_dir :=
    lazyvim_stage_step_frame hl2
  have hex : path_exists (lazyvim_stage_step env).fs nvim_config_dir = false :=
    path_exists_broken hc1 ht1
  have hpre : install_lazyvim_pre env = lazyvim_stage_step env := by
    unfold install_lazyvim_pre lazyvim_backup_step
    rw [if_neg (by simp [hex])]
  constructor
  · rw [install_lazyvim_after_pre hl1, hpre]
    exact hc1
  · rw [install_lazyvim_after_pre hl2, hpre]
    exact hb1

/-- C10: the bootstrap steps use Python's dereferencing `exists()`
checks, not the lexists semantics of source validation.  First, a
dangling symbolic link at `configRoot/nvim` (with a target outside the
two managed roots) is neither backed up nor renamed by a full run: no
`nvim.backup` appears and the dangling link survives install() whatever
its outcome — `nvim` is not a registry component, so steps 4–5 never
touch it.  Second and third, a dangling link at the staged nvim path or
at the tpm path is not removed before cloning: the pre-clone cleanup
leaves the world untouched and the link is still in place in the state
handed to the clone. -/
theorem claim_c10_broken_symlink_semantics :
    (∀ (env : Env) (t : Path),
       env.fs nvim_config_dir = some (Node.symlink t) →
       env.fs t = none →
       leads USER_DOTFILES_DIR t = false →
       leads USER_CONFIGS_DIR t = false →
       env.fs nvim_backup_dir = none →
       ((install false env).2.1.fs nvim_config_dir = some (Node.symlink t) ∧
        (install false env).2.1.fs nvim_backup_dir = none)) ∧
    (∀ (env : Env) (t : Path),
       env.fs lazyvim_dir = some (Node.symlink t) →
       env.fs t = none →
       (lazyvim_stage_step env = env ∧
        (install_lazyvim_pre env).fs lazyvim_dir = some (Node.symlink t))) ∧
    (∀ (env : Env) (t : Path),
       env.fs tpm_dir = some (Node.symlink t) →
       env.fs t = none →
       install_tpm_pre env = env) := by
  refine ⟨?_, ?_, ?_⟩
  · intro env t h1 h2 h3 h4 h5
    have e1 : (pipe1 false env).env = env := validate_env_eq false env
    have hP2a : ((pipe2 false env).env).fs nvim_config_dir = some (Node.symlink t) := by
      show ((copy_dotfiles false (pipe1 false env).env).env).fs (USER_CONFIGS_DIR ++ ["nvim"])
          = _
      rw [copy_fs_frame (not_leads_stage_cfg ["nvim"]), e1]
      exact h1
    have hP2b : ((pipe2 false env).env).fs t = none := by
      show ((copy_dotfiles false (pipe1 false env).env).env).fs t = _
      rw [copy_fs_frame h3, e1]
      exact h2
    have hP2c : ((pipe2 false env).env).fs nvim_backup_dir = none := by
      show ((copy_dotfiles false (pipe1 false env).env).env).fs
            (USER_CONFIGS_DIR ++ ["nvim.backup"]) = _
      rw [copy_fs_frame (not_leads_stage_cfg ["nvim.backup"]), e1]
      exact h5
    have e3 : (pipe3 false env).env = (pipe2 false env).env :=
      verify_env_eq false ((pipe2 false env).env)
    have hstep4 : (pipe4 false env).env =
        (remove_existing_aux dotfiles_components ((pipe3 false env).env)).env := by
      show (remove_existing_configs false ((pipe3 false env).env)).env = _
      unfold remove_existing_configs
      rw [if_neg Bool.false_ne_true]
    have hP4a : ((pipe4 false env).env).fs nvim_config_dir = some (Node.symlink t) := by
      rw [hstep4]
      show (remove_existing_aux dotfiles_components ((pipe3 false env).env)).env.fs
            (USER_CONFIGS_DIR ++ ["nvim"]) = _
      rw [remove_existing_aux_frame _ _
            (fun c hc => not_leads_cfgx_cfgy0 (comps_ne_special c hc).1), e3]
      exact hP2a
    have hP4b : ((pipe4 false env).env).fs t = none := by
      rw [hstep4, remove_existing_aux_frame _ _ (fun c _ => leads_extend [c] h4), e3]
      exact hP2b
    have hP4c : ((pipe4 false env).env).fs nvim_backup_dir = none := by
      rw [hstep4]
      show (remove_existing_aux dotfiles_components ((pipe3 false env).env)).env.fs
            (USER_CONFIGS_DIR ++ ["nvim.backup"]) = _
      rw [remove_existing_aux_frame _ _
            (fun c hc => not_leads_cfgx_cfgy0 (comps_ne_special c hc).2), e3]
      exact hP2c
    have hstep5 : (pipe5 false env).env =
        (create_links_aux dotfiles_components ((pipe4 false env).env)).1 := by
      show (create_links false ((pipe4 false env).env)).env = _
      unfold create_links
      rw [if_neg Bool.false_ne_true]
    have hP5a : ((pipe5 false env).env).fs nvim_config_dir = some (Node.symlink t) := by
      rw [hstep5]
      show (create_links_aux dotfiles_components ((pipe4 false env).env)).1.fs
            (USER_CONFIGS_DIR ++ ["nvim"]) = _
      rw [create_links_aux_frame _ _
            (fun c hc heq => (comps_ne_special c hc).1 (append_single_inj heq).symm)]
      exact hP4a
    have hP5b : ((pipe5 false env).env).fs t = none := by
      rw [hstep5, create_links_aux_frame _ _ ?_]
      · exact hP4b
      · intro c _ heq
        have h4' := h4
        rw [heq] at h4'
        rw [show link_target_path c = USER_CONFIGS_DIR ++ [c] from rfl,
            leads_self_append] at h4'
        simp at h4'
    have hP5c : ((pipe5 false env).env).fs nvim_backup_dir = none := by
      rw [hstep5]
      show (create_links_aux dotfiles_components ((pipe4 false env).env)).1.fs
            (USER_CONFIGS_DIR ++ ["nvim.backup"]) = _
      rw [create_links_aux_frame _ _
            (fun c hc heq => (comps_ne_special c hc).2 (append_single_inj heq).symm)]
      exact hP4c
    have hP6a : ((pipe6 false env).env).fs nvim_config_dir = some (Node.symlink t) := by
      show ((install_tpm false ((pipe5 false env).env)).env).fs (USER_CONFIGS_DIR ++ ["nvim"])
          = _
      rw [install_tpm_fs_frame
            (leads_extend ["tmux", "plugins", "tpm"] (not_leads_stage_cfg ["nvim"]))]
      exact hP5a
    have hP6b : ((pipe6 false env).env).fs t = none := by
      show ((install_tpm false ((pipe5 false env).env)).env).fs t = _
      rw [install_tpm_fs_frame (leads_extend ["tmux", "plugins", "tpm"] h3)]
      exact hP5b
    have hP6c : ((pipe6 false env).env).fs nvim_backup_dir = none := by
      show ((install_tpm false ((pipe5 false env).env)).env).fs
            (USER_CONFIGS_DIR ++ ["nvim.backup"]) = _
      rw [install_tpm_fs_frame
            (leads_extend ["tmux", "plugins", "tpm"] (not_leads_stage_cfg ["nvim.backup"]))]
      exact hP5c
    have hP7 := install_lazyvim_broken hP6a hP6b h3
    have hP7a : ((pipe7 false env).env).fs nvim_config_dir = some (Node.symlink t) := hP7.1
    have hP7c : ((pipe7 false env).env).fs nvim_backup_dir = none := by
      show ((install_lazyvim false ((pipe6 false env).env)).env).fs nvim_backup_dir = _
      rw [hP7.2]
      exact hP6c
    have hP1a : ((pipe1 false env).env).fs nvim_config_dir = some (Node.symlink t) := by
      rw [e1]; exact h1
    have hP1c : ((pipe1 false env).env).fs nvim_backup_dir = none := by
      rw [e1]; exact h5
    have hP3a : ((pipe3 false env).env).fs nvim_config_dir = some (Node.symlink t) := by
      rw [e3]; exact hP2a
    have hP3c : ((pipe3 false env).env).fs nvim_backup_dir = none := by
      rw [e3]; exact hP2c
    unfold install
    split_ifs
    · exact ⟨hP1a, hP1c⟩
    · exact ⟨hP2a, hP2c⟩
    · exact ⟨hP3a, hP3c⟩
    · exact ⟨hP4a, hP4c⟩
    · exact ⟨hP5a, hP5c⟩
    · exact ⟨hP6a, hP6c⟩
    · exact ⟨hP7a, hP7c⟩
    · exact ⟨hP7a, hP7c⟩
  · intro env t h1 h2
    have hstage : lazyvim_stage_step env = env := by
      unfold lazyvim_stage_step
      rw [if_neg (by simp [path_exists_broken h1 h2])]
    refine ⟨hstage, ?_⟩
    unfold install_lazyvim_pre
    rw [hstage]
    have hx : leads nvim_config_dir lazyvim_dir = false := by
      show leads (USER_CONFIGS_DIR ++ ["nvim"]) (USER_DOTFILES_DIR ++ ["nvim"]) = false
      exact leads_extend ["nvim"] (not_leads_cfg_stage ["nvim"])
    have hy : leads nvim_backup_dir lazyvim_dir = false := by
      show leads (USER_CONFIGS_DIR ++ ["nvim.backup"]) (USER_DOTFILES_DIR ++ ["nvim"]) = false
      exact leads_extend ["nvim.backup"] (not_leads_cfg_stage ["nvim"])
    rw [lazyvim_backup_step_frame hx hy]
    exact h1
  · intro env t h1 h2
    unfold install_tpm_pre
    rw [if_neg (by simp [path_exists_broken h1 h2])]

/-- A world holding dangling symbolic links at the live nvim config
path, the staged nvim path and the staged tpm path. -/
def envBroken : Env :=
  { fs := lookupFS [(nvim_config_dir, Node.symlink ["dead"]),
                    (lazyvim_dir, Node.symlink ["dead2"]),
                    (tpm_dir, Node.symlink ["dead3"])],
    removeFaults := [],
    cloneOutcome := fun _ => none }

/-- C10 witness: on a world full of dangling links, a full run leaves
the live nvim link dangling with no backup created, and the pre-clone
cleanups of both bootstrap steps leave the world untouched with the
links still in place. -/
theorem claim_c10_broken_symlink_semantics_witness :
    ((install false envBroken).2.1.fs nvim_config_dir = some (Node.symlink ["dead"]) ∧
     (install false envBroken).2.1.fs nvim_backup_dir = none) ∧
    lazyvim_stage_step envBroken = envBroken ∧
    (install_lazyvim_pre envBroken).fs lazyvim_dir = some (Node.symlink ["dead2"]) ∧
    install_tpm_pre envBroken = envBroken := by
  refine ⟨claim_c10_broken_symlink_semantics.1 envBroken ["dead"]
      (by decide) (by decide) (by decide) (by decide) (by decide), ?_, ?_,
      claim_c10_broken_symlink_semantics.2.2 envBroken ["dead3"] (by decide) (by decide)⟩
  · exact (claim_c10_broken_symlink_semantics.2.1 envBroken ["dead2"]
      (by decide) (by decide)).1
  · exact (claim_c10_broken_symlink_semantics.2.1 envBroken ["dead2"]
      (by decide) (by decide)).2

theorem bool_ne_false {b : Bool} (h : ¬(b = false)) : b = true := by
  cases b
  · exact absurd rfl h
  · rfl

theorem install_ok_decomp {env : Env} (hok : (install false env).1 = true) :
    (pipe1 false env).ok = true ∧ (pipe2 false env).ok = true ∧ (pipe3 false env).ok = true ∧
    (pipe4 false env).ok = true ∧ (pipe5 false env).ok = true ∧ (pipe6 false env).ok = true ∧
    (pipe7 false env).ok = true ∧ (install false env).2.1 = (pipe7 false env).env := by
  unfold install at hok ⊢
  by_cases h1 : (pipe1 false env).ok = false
  · rw [if_pos h1] at hok; simp at hok
  · rw [if_neg h1] at hok ⊢
    by_cases h2 : (pipe2 false env).ok = false
    · rw [if_pos h2] at hok; simp at hok
    · rw [if_neg h2] at hok ⊢
      by_cases h3 : (pipe3 false env).ok = false
      · rw [if_pos h3] at hok; simp at hok
      · rw [if_neg h3] at hok ⊢
        by_cases h4 : (pipe4 false env).ok = false
        · rw [if_pos h4] at hok; simp at hok
        · rw [if_neg h4] at hok ⊢
          by_cases h5 : (pipe5 false env).ok = false
          · rw [if_pos h5] at hok; simp at hok
          · rw [if_neg h5] at hok ⊢
            by_cases h6 : (pipe6 false env).ok = false
            · rw [if_pos h6] at hok; simp at hok
            · rw [if_neg h6] at hok ⊢
              by_cases h7 : (pipe7 false env).ok = false
              · rw [if_pos h7] at hok; simp at hok
              · rw [if_neg h7]
                exact ⟨bool_ne_false h1, bool_ne_false h2, bool_ne_false h3,
                       bool_ne_false h4, bool_ne_false h5, bool_ne_false h6,
                       bool_ne_false h7, rfl⟩

theorem missingOf_nil_lexists {l : List Path} {fs : FS} (h : missingOf l fs = []) :
    ∀ p ∈ l, path_lexists fs p = true := by
  induction l with
  | nil => intro p hp; simp at hp
  | cons a rest ih =>
      intro p hp
      by_cases ha : path_lexists fs a = true
      · rw [missingOf, if_pos ha] at h
        rcases List.mem_cons.mp hp with rfl | hpr
        · exact ha
        · exact ih h p hpr
      · rw [missingOf, if_neg ha] at h
        cases h

theorem verify_ok_lexists {e : Env} (h : (verify_copy false e).ok = true) :
    ∀ p ∈ target_dotfiles_components_paths, e.fs p ≠ none := by
  have hm : verify_missing e = [] := by
    have hh : (verify_missing e).isEmpty = true := h
    cases he : verify_missing e
    · rfl
    · rw [he] at hh; simp at hh
  intro p hp hnone
  have := missingOf_nil_lexists hm p hp
  rw [path_lexists, hnone] at this
  simp at this

theorem list_isEmpty_true {α : Type} {l : List α} (h : l.isEmpty = true) : l = [] := by
  cases l
  · rfl
  · simp at h

theorem not_leads_tpm_stagecr {c : String} (h : c ≠ "tmux") (r : Path) :
    leads tpm_dir ((USER_DOTFILES_DIR ++ [c]) ++ r) = false := by
  show leads (USER_DOTFILES_DIR ++ ["tmux", "plugins", "tpm"])
        ((USER_DOTFILES_DIR ++ [c]) ++ r) = false
  rw [List.append_assoc, List.singleton_append, leads_append_same]
  exact leads_cons_ne (Ne.symm h) _ _

theorem not_leads_lazy_stagecr {c : String} (h : c ≠ "nvim") (r : Path) :
    leads lazyvim_dir ((USER_DOTFILES_DIR ++ [c]) ++ r) = false := by
  show leads (USER_DOTFILES_DIR ++ ["nvim"]) ((USER_DOTFILES_DIR ++ [c]) ++ r) = false
  rw [List.append_assoc, List.singleton_append, leads_append_same]
  exact leads_cons_ne (Ne.symm h) _ _

theorem not_leads_tpm_stagec (c : String) :
    leads tpm_dir (USER_DOTFILES_DIR ++ [c]) = false := by
  show leads (USER_DOTFILES_DIR ++ ["tmux", "plugins", "tpm"])
        (USER_DOTFILES_DIR ++ [c]) = false
  rw [leads_append_same]
  show leads ("tmux" :: ["plugins", "tpm"]) (c :: []) = false
  by_cases h : "tmux" = c
  · simp [leads, h]
  · simp [leads, h]

theorem not_leads_lazy_stagec {c : String} (h : c ≠ "nvim") :
    leads lazyvim_dir (USER_DOTFILES_DIR ++ [c]) = false := by
  show leads (USER_DOTFILES_DIR ++ ["nvim"]) (USER_DOTFILES_DIR ++ [c]) = false
  rw [leads_append_same]
  exact leads_single_ne (Ne.symm h) []

/-- C1 (amended): after `install` returns `true` on a non-dry run, the
source tree is exactly as it started (so "as at copy time" is the
initial state), and for every registry component `configRoot/name` is a
symlink to `stageRoot/name` and `stageRoot/name` exists; for every
component except `tmux`, `stageRoot/name` is additionally a
byte-for-byte copy of `sourceRoot/name` as it was at copy time.  The
`tmux` exception is forced by the TPM bootstrap, which clones the
plugin manager under `stageRoot/tmux/plugins/tpm` after the copy. -/
theorem claim_c1_amended_install_postcondition : ∀ env : Env,
    (install false env).1 = true →
    ((∀ r : Path, (install false env).2.1.fs (HYPRDOTS_DOTFILES_DIR ++ r) =
        env.fs (HYPRDOTS_DOTFILES_DIR ++ r)) ∧
     ∀ c ∈ dotfiles_components,
       ((install false env).2.1.fs (USER_CONFIGS_DIR ++ [c]) =
           some (Node.symlink (USER_DOTFILES_DIR ++ [c])) ∧
        (install false env).2.1.fs (USER_DOTFILES_DIR ++ [c]) ≠ none ∧
        (c ≠ "tmux" →
          ∀ r : Path, (install false env).2.1.fs ((USER_DOTFILES_DIR ++ [c]) ++ r) =
            env.fs ((HYPRDOTS_DOTFILES_DIR ++ [c]) ++ r)))) := by
  intro env hok
  obtain ⟨hv1, hv2, hv3, hv4, hv5, hv6, hv7, hfin⟩ := install_ok_decomp hok
  rw [hfin]
  have e1 : (pipe1 false env).env = env := validate_env_eq false env
  have e3 : (pipe3 false env).env = (pipe2 false env).env :=
    verify_env_eq false ((pipe2 false env).env)
  have hstep4 : (pipe4 false env).env =
      (remove_existing_aux dotfiles_components ((pipe3 false env).env)).env := by
    show (remove_existing_configs false ((pipe3 false env).env)).env = _
    unfold remove_existing_configs
    rw [if_neg Bool.false_ne_true]
  have hstep5env : (pipe5 false env).env =
      (create_links_aux dotfiles_components ((pipe4 false env).env)).1 := by
    show (create_links false ((pipe4 false env).env)).env = _
    unfold create_links
    rw [if_neg Bool.false_ne_true]
  constructor
  · intro r
    have hA5 : ∀ c' ∈ dotfiles_components,
        HYPRDOTS_DOTFILES_DIR ++ r ≠ link_target_path c' := by
      intro c' _ heq
      have hf := not_leads_cfg_src r
      rw [heq, show link_target_path c' = USER_CONFIGS_DIR ++ [c'] from rfl,
          leads_self_append] at hf
      simp at hf
    have hA4 : ∀ c' ∈ dotfiles_components,
        leads (remove_target_path c') (HYPRDOTS_DOTFILES_DIR ++ r) = false :=
      fun c' _ => leads_extend [c'] (not_leads_cfg_src r)
    show ((install_lazyvim false ((pipe6 false env).env)).env).fs
          (HYPRDOTS_DOTFILES_DIR ++ r) = _
    rw [install_lazyvim_fs_frame (leads_extend ["nvim"] (not_leads_stage_src r))
          (leads_extend ["nvim"] (not_leads_cfg_src r))
          (leads_extend ["nvim.backup"] (not_leads_cfg_src r))]
    show ((install_tpm false ((pipe5 false env).env)).env).fs
          (HYPRDOTS_DOTFILES_DIR ++ r) = _
    rw [install_tpm_fs_frame
          (leads_extend ["tmux", "plugins", "tpm"] (not_leads_stage_src r))]
    rw [hstep5env, create_links_aux_frame _ _ hA5, hstep4,
        remove_existing_aux_frame _ _ hA4, e3]
    show ((copy_dotfiles false ((pipe1 false env).env)).env).fs
          (HYPRDOTS_DOTFILES_DIR ++ r) = _
    rw [copy_fs_frame (not_leads_stage_src r), e1]
  · intro c hc
    have hcn : c ≠ "nvim" := (comps_ne_special c hc).1
    have hcb : c ≠ "nvim.backup" := (comps_ne_special c hc).2
    have hfailed : (create_links_aux dotfiles_components ((pipe4 false env).env)).2 = [] := by
      have h2 : (create_links_aux dotfiles_components ((pipe4 false env).env)).2.isEmpty
          = true := hv5
      exact list_isEmpty_true h2
    have hlinked : ((pipe5 false env).env).fs (link_target_path c) =
        some (Node.symlink (link_source_path c)) := by
      rw [hstep5env]
      rcases create_links_aux_linked dotfiles_components ((pipe4 false env).env)
          (by decide) c hc with hmem | hfs
      · rw [hfailed] at hmem
        simp at hmem
      · exact hfs
    refine ⟨?_, ?_, ?_⟩
    · show ((install_lazyvim false ((pipe6 false env).env)).env).fs
            (USER_CONFIGS_DIR ++ [c]) = _
      rw [install_lazyvim_fs_frame (leads_extend ["nvim"] (not_leads_stage_cfg [c]))
            (not_leads_cfgx_cfgy0 (Ne.symm hcn)) (not_leads_cfgx_cfgy0 (Ne.symm hcb))]
      show ((install_tpm false ((pipe5 false env).env)).env).fs
            (USER_CONFIGS_DIR ++ [c]) = _
      rw [install_tpm_fs_frame
            (leads_extend ["tmux", "plugins", "tpm"] (not_leads_stage_cfg [c]))]
      exact hlinked
    · have hlex2 : ((pipe2 false env).env).fs (USER_DOTFILES_DIR ++ [c]) ≠ none := by
        apply verify_ok_lexists hv3
        exact List.mem_map_of_mem _ hc
      have hne5c : ∀ c' ∈ dotfiles_components,
          USER_DOTFILES_DIR ++ [c] ≠ link_target_path c' := by
        intro c' _ heq
        have hf := not_leads_cfg_stage [c]
        rw [heq, show link_target_path c' = USER_CONFIGS_DIR ++ [c'] from rfl,
            leads_self_append] at hf
        simp at hf
      have hrm4c : ∀ c' ∈ dotfiles_components,
          leads (remove_target_path c') (USER_DOTFILES_DIR ++ [c]) = false :=
        fun c' _ => leads_extend [c'] (not_leads_cfg_stage [c])
      show ((install_lazyvim false ((pipe6 false env).env)).env).fs
            (USER_DOTFILES_DIR ++ [c]) ≠ none
      rw [install_lazyvim_fs_frame (not_leads_lazy_stagec hcn)
            (leads_extend ["nvim"] (not_leads_cfg_stage [c]))
            (leads_extend ["nvim.backup"] (not_leads_cfg_stage [c]))]
      show ((install_tpm false ((pipe5 false env).env)).env).fs
            (USER_DOTFILES_DIR ++ [c]) ≠ none
      rw [install_tpm_fs_frame (not_leads_tpm_stagec c)]
      rw [hstep5env, create_links_aux_frame _ _ hne5c, hstep4,
          remove_existing_aux_frame _ _ hrm4c, e3]
      exact hlex2
    · intro hct r
      have hne5cr : ∀ c' ∈ dotfiles_components,
          (USER_DOTFILES_DIR ++ [c]) ++ r ≠ link_target_path c' := by
        intro c' _ heq
        have hf := not_leads_cfg_stage2 c r
        rw [heq, show link_target_path c' = USER_CONFIGS_DIR ++ [c'] from rfl,
            leads_self_append] at hf
        simp at hf
      have hrm4cr : ∀ c' ∈ dotfiles_components,
          leads (remove_target_path c') ((USER_DOTFILES_DIR ++ [c]) ++ r) = false :=
        fun c' _ => leads_extend [c'] (not_leads_cfg_stage2 c r)
      show ((install_lazyvim false ((pipe6 false env).env)).env).fs
            ((USER_DOTFILES_DIR ++ [c]) ++ r) = _
      rw [install_lazyvim_fs_frame (not_leads_lazy_stagecr hcn r)
            (leads_extend ["nvim"] (not_leads_cfg_stage2 c r))
            (leads_extend ["nvim.backup"] (not_leads_cfg_stage2 c r))]
      show ((install_tpm false ((pipe5 false env).env)).env).fs
            ((USER_DOTFILES_DIR ++ [c]) ++ r) = _
      rw [install_tpm_fs_frame (not_leads_tpm_stagecr hct r)]
      rw [hstep5env, create_links_aux_frame _ _ hne5cr, hstep4,
          remove_existing_aux_frame _ _ hrm4cr, e3]
      rw [List.append_assoc]
      show ((copy_dotfiles false ((pipe1 false env).env)).env).fs
            (USER_DOTFILES_DIR ++ ([c] ++ r)) = _
      rw [copy_ok_stage hv2 ([c] ++ r), e1, ← List.append_assoc]

/-- C1 counterexample: on the healthy world `envGood`, `install`
returns `true`, yet the staged `tmux` component is not a byte-for-byte
copy of `sourceRoot/tmux` as it was at copy time: the TPM bootstrap
cloned the plugin manager into `stageRoot/tmux/plugins/tpm`, a path
that is empty under `sourceRoot/tmux` both initially (equal to its
state at copy time, the source tree never being written) and at the
end of the run.  So the claim as stated fails for component `tmux`. -/
theorem claim_c1_counterexample :
    (install false envGood).1 = true ∧
    "tmux" ∈ dotfiles_components ∧
    (install false envGood).2.1.fs (USER_DOTFILES_DIR ++ ["tmux", "plugins", "tpm"]) =
      some Node.dir ∧
    envGood.fs (HYPRDOTS_DOTFILES_DIR ++ ["tmux", "plugins", "tpm"]) = none ∧
    (install false envGood).2.1.fs (HYPRDOTS_DOTFILES_DIR ++ ["tmux", "plugins", "tpm"])
      = none ∧
    ¬ (∀ r : Path,
        (install false envGood).2.1.fs ((USER_DOTFILES_DIR ++ ["tmux"]) ++ r) =
          envGood.fs ((HYPRDOTS_DOTFILES_DIR ++ ["tmux"]) ++ r)) := by
  refine ⟨by decide, by decide, by decide, by decide, by decide, fun hall => ?_⟩
  have h := hall ["plugins", "tpm"]
  revert h
  decide

/-- C1 witness (for the amended claim): on `envGood` the run succeeds,
the `hypr` component is correctly linked, and its staged subtree
matches the source byte for byte. -/
theorem claim_c1_amended_install_postcondition_witness :
    (install false envGood).1 = true ∧
    (install false envGood).2.1.fs (USER_CONFIGS_DIR ++ ["hypr"]) =
      some (Node.symlink (USER_DOTFILES_DIR ++ ["hypr"])) ∧
    (install false envGood).2.1.fs ((USER_DOTFILES_DIR ++ ["hypr"]) ++ ["sub"]) =
      envGood.fs ((HYPRDOTS_DOTFILES_DIR ++ ["hypr"]) ++ ["sub"]) := by
  have h := claim_c1_amended_install_postcondition envGood (by decide)
  exact ⟨by decide, (h.2 "hypr" (by decide)).1, (h.2 "hypr" (by decide)).2.2 (by decide) ["sub"]⟩

end Dotfiles
